import Mathlib

/-!
Shallow embedding of the TaskFlow server (src/server.js, authenticated
variant, and the legacy non-authenticated variant in src/unnamed/part_000).
Rows of the SQLite tables become Lean structures; each Express handler
becomes a pure function from the request data and the current store to a
response paired with the next store. SQL statements are translated
operation by operation: `SELECT ... WHERE` becomes `List.find?` / `List.filter`,
`UPDATE ... WHERE id = ?` becomes a `List.map` touching the matching rows,
`DELETE ... WHERE` becomes `List.filter`, and `INSERT` appends (failing when
the TEXT PRIMARY KEY is already present). JS string truthiness (`!token`,
`if (nickname)`) is modelled as "not the empty string"; `completed ? 1 : 0`
takes the already-coerced boolean.
-/

/-- An HTTP response: either a 200 payload or an error status code. -/
inductive Resp (α : Type) where
  | ok  : α → Resp α
  | err : Nat → Resp α
deriving DecidableEq, Repr

/-- Row of the `users` table (server.js lines 24-32). -/
structure User where
  id : String
  username : String
  nickname : String
  password : String
  created_at : Nat
deriving DecidableEq, Repr

/-- Row of the `projects` table (server.js lines 35-43). -/
structure Project where
  id : String
  user_id : String
  name : String
  created_at : Nat
deriving DecidableEq, Repr

/-- Row of the `tasks` table (server.js lines 46-60); named TaskRow because core Lean reserves the bare name. -/
structure TaskRow where
  id : String
  user_id : String
  project_id : String
  name : String
  description : String
  priority : String
  deadline : String
  completed : Nat
  created_at : Nat
deriving DecidableEq, Repr

/-- The whole SQLite store of the authenticated variant. -/
structure DB where
  users : List User
  projects : List Project
  tasks : List TaskRow
deriving DecidableEq, Repr

/-- The in-memory session registry: `const sessions = new Map()`,
token to user id. -/
def Sessions : Type := List (String × String)

/-- `pat` matches at the head of the text (pattern is a prefix). -/
def matchesAt : List Char → List Char → Bool
  | [], _ => true
  | _ :: _, [] => false
  | c :: cs, d :: ds => c == d && matchesAt cs ds

/-- Remove the first occurrence of `pat`, as JS
`String.prototype.replace(pat, '')` does with a string pattern. -/
def stripFirst (pat : List Char) : List Char → List Char
  | [] => []
  | c :: cs =>
    if matchesAt pat (c :: cs) then (c :: cs).drop pat.length
    else c :: stripFirst pat cs

/-- `pat` occurs somewhere in the text. -/
def hasSub (pat : List Char) : List Char → Bool
  | [] => matchesAt pat []
  | c :: cs => matchesAt pat (c :: cs) || hasSub pat cs

/-- `req.headers.authorization?.replace('Bearer ', '')` (server.js line 93). -/
def replaceBearer (h : String) : String :=
  String.mk (stripFirst "Bearer ".data h.data)

/-- The authorization gate `requireAuth` (server.js lines 92-99): extract the
token, answer 401 when it is empty/absent or unregistered, otherwise resolve
the user id. It only reads the registry. -/
def requireAuth (sessions : Sessions) (auth : Option String) : Resp String :=
  match auth with
  | none => .err 401
  | some h =>
    let token := replaceBearer h
    if token = "" then .err 401
    else
      match List.lookup token sessions with
      | none => .err 401
      | some uid => .ok uid

/-- A protected route: the gate runs first; on failure the handler never runs
and the store is untouched, on success the handler receives the resolved
user id (`req.userId`). -/
def protectedRoute {α : Type} (handler : String → DB → Resp α × DB)
    (sessions : Sessions) (auth : Option String) (db : DB) : Resp α × DB :=
  match requireAuth sessions auth with
  | .err c => (.err c, db)
  | .ok uid => handler uid db

/-- `SELECT * FROM projects WHERE id = ? AND user_id = ?`. -/
def findProject (db : DB) (pid uid : String) : Option Project :=
  db.projects.find? (fun p => p.id == pid && p.user_id == uid)

/-- `SELECT * FROM tasks WHERE id = ? AND user_id = ?`. -/
def findTask (db : DB) (tid uid : String) : Option TaskRow :=
  db.tasks.find? (fun t => t.id == tid && t.user_id == uid)

/-- Body of `POST /api/tasks`; `description` is optional in the request. -/
structure TaskBody where
  id : String
  project_id : String
  name : String
  description : Option String
  priority : String
  deadline : String
deriving DecidableEq, Repr

/-- `POST /api/tasks` (server.js lines 277-296): verify the project belongs
to the caller (400 `Invalid project` otherwise), then insert the task with
`completed` defaulting to 0 and `description || ''`; a duplicate primary key
makes the INSERT fail (500). -/
def createTask (uid : String) (body : TaskBody) (now : Nat) (db : DB) :
    Resp Unit × DB :=
  match findProject db body.project_id uid with
  | none => (.err 400, db)
  | some _ =>
    if db.tasks.any (fun t => t.id == body.id) then (.err 500, db)
    else
      let t : TaskRow :=
        { id := body.id, user_id := uid, project_id := body.project_id,
          name := body.name,
          description := match body.description with | some d => d | none => "",
          priority := body.priority, deadline := body.deadline,
          completed := 0, created_at := now }
      (.ok (), { db with tasks := db.tasks ++ [t] })

/-- Body of `PUT /api/tasks/:id`; `completed` holds the JS truthiness of the
supplied value (the handler stores `completed ? 1 : 0`). -/
structure TaskUpdateBody where
  name : String
  description : String
  priority : String
  deadline : String
  completed : Bool
  project_id : String
deriving DecidableEq, Repr

/-- `PUT /api/tasks/:id` (server.js lines 299-319): verify the task belongs
to the caller (404 otherwise), then overwrite name/description/priority/
deadline/completed/project_id of the row(s) with that id. The supplied
`project_id` is not validated. -/
def updateTask (uid tid : String) (body : TaskUpdateBody) (db : DB) :
    Resp Unit × DB :=
  match findTask db tid uid with
  | none => (.err 404, db)
  | some _ =>
    (.ok (), { db with tasks := db.tasks.map fun t =>
      if t.id == tid then
        { t with name := body.name, description := body.description,
                 priority := body.priority, deadline := body.deadline,
                 completed := if body.completed then 1 else 0,
                 project_id := body.project_id }
      else t })

/-- `PATCH /api/tasks/:id/toggle` (server.js lines 322-338): read the owned
row's `completed`, flip it by JS truthiness (`task.completed ? 0 : 1`) and
write it back; 404 when the caller owns no such task. -/
def toggleTask (uid tid : String) (db : DB) : Resp Nat × DB :=
  match findTask db tid uid with
  | none => (.err 404, db)
  | some task =>
    let newStatus : Nat := if task.completed ≠ 0 then 0 else 1
    (.ok newStatus, { db with tasks := db.tasks.map fun t =>
      if t.id == tid then { t with completed := newStatus } else t })

/-- `DELETE /api/tasks/:id` (server.js lines 341-356): ownership check then
`DELETE FROM tasks WHERE id = ?`. -/
def deleteTask (uid tid : String) (db : DB) : Resp Unit × DB :=
  match findTask db tid uid with
  | none => (.err 404, db)
  | some _ =>
    (.ok (), { db with tasks := db.tasks.filter (fun t => !(t.id == tid)) })

/-- `POST /api/projects` (server.js lines 200-214): insert a project owned by
the caller; the generated `'p' + Date.now()` id is the `pid` argument. -/
def createProject (uid pid name : String) (now : Nat) (db : DB) :
    Resp Unit × DB :=
  if db.projects.any (fun p => p.id == pid) then (.err 500, db)
  else
    (.ok (), { db with projects :=
      db.projects ++ [{ id := pid, user_id := uid, name := name,
                        created_at := now }] })

/-- `PUT /api/projects/:id` (server.js lines 234-249): look the project up
scoped to (id, owner), 404 when absent, then `UPDATE projects SET name`. -/
def updateProject (uid pid name : String) (db : DB) : Resp Unit × DB :=
  match findProject db pid uid with
  | none => (.err 404, db)
  | some _ =>
    (.ok (), { db with projects := db.projects.map fun p =>
      if p.id == pid then { p with name := name } else p })

/-- `DELETE /api/projects/:id` (server.js lines 217-231): look the project up
scoped to (id, owner), 404 when absent, then delete the project's tasks and
the project itself. -/
def deleteProject (uid pid : String) (db : DB) : Resp Unit × DB :=
  match findProject db pid uid with
  | none => (.err 404, db)
  | some _ =>
    (.ok (), { db with
      tasks := db.tasks.filter (fun t => !(t.project_id == pid)),
      projects := db.projects.filter (fun p => !(p.id == pid)) })

/-- Value actually stored by a conditional profile UPDATE: the supplied
string when it is truthy, the previous value otherwise. -/
def suppliedVal : Option String → String → String
  | some v, dflt => if v ≠ "" then v else dflt
  | none, dflt => dflt

/-- The supplied optional field is JS-truthy (present and non-empty). -/
def supplied : Option String → Bool
  | some v => v ≠ ""
  | none => false

/-- `PUT /api/auth/profile` (server.js lines 170-185): when `nickname` is
truthy run `UPDATE users SET nickname = ? WHERE id = ?`, when `password` is
truthy likewise for `password`; always answer success. -/
def updateProfile (uid : String) (nn pw : Option String) (db : DB) :
    Resp Unit × DB :=
  let us1 :=
    match nn with
    | some v =>
      if v ≠ "" then
        db.users.map (fun u => if u.id == uid then { u with nickname := v } else u)
      else db.users
    | none => db.users
  let us2 :=
    match pw with
    | some v =>
      if v ≠ "" then
        us1.map (fun u => if u.id == uid then { u with password := v } else u)
      else us1
    | none => us1
  (.ok (), { db with users := us2 })

/-- `POST /api/auth/register` (server.js lines 104-127): all three fields
required (400), duplicate username rejected by the UNIQUE constraint (400),
otherwise insert the user row. -/
def register (username nickname password newId : String) (now : Nat)
    (db : DB) : Resp Unit × DB :=
  if username = "" ∨ nickname = "" ∨ password = "" then (.err 400, db)
  else if db.users.any (fun u => u.username == username) then (.err 400, db)
  else
    (.ok (), { db with users :=
      db.users ++ [{ id := newId, username := username, nickname := nickname,
                     password := password, created_at := now }] })

/-- The JSON document a client receives from `GET /api/export`; `exportedAt`
is `none` when the document carries no timestamp field. -/
structure ExportDoc where
  projects : List Project
  tasks : List TaskRow
  exportedAt : Option String
deriving DecidableEq, Repr

/-- `GET /api/export` (server.js lines 359-370): the caller's projects and
tasks, serialized as `{ projects, tasks }` — no timestamp field. -/
def exportData (uid : String) (db : DB) : ExportDoc :=
  { projects := db.projects.filter (fun p => p.user_id == uid),
    tasks := db.tasks.filter (fun t => t.user_id == uid),
    exportedAt := none }

/-- The declared store invariant: every task's project exists and is owned by
the task's own user (spec §3). Prop form. -/
def TaskProjInv (db : DB) : Prop :=
  ∀ t ∈ db.tasks, ∃ p ∈ db.projects, p.id = t.project_id ∧ p.user_id = t.user_id

/-- Executable form of `TaskProjInv`. -/
def taskProjOk (db : DB) : Bool :=
  db.tasks.all (fun t =>
    db.projects.any (fun p => p.id == t.project_id && p.user_id == t.user_id))

namespace Legacy

/-- Row of the legacy `projects` table (src/unnamed/part_000 lines 19-25):
no user column. -/
structure ProjectN where
  id : String
  name : String
  created_at : Nat
deriving DecidableEq, Repr

/-- Row of the legacy `tasks` table (src/unnamed/part_000 lines 27-39). -/
structure TaskN where
  id : String
  project_id : String
  name : String
  description : String
  priority : String
  deadline : String
  completed : Nat
  created_at : Nat
deriving DecidableEq, Repr

/-- The legacy store. -/
structure StateN where
  projects : List ProjectN
  tasks : List TaskN
deriving DecidableEq, Repr

/-- The legacy export document (part_000 lines 217-221): projects, tasks and
the `exportedAt` timestamp. -/
structure ExportDocN where
  projects : List ProjectN
  tasks : List TaskN
  exportedAt : String
deriving DecidableEq, Repr

/-- `GET /api/export` of the legacy variant (part_000 lines 212-229): the
whole store plus `exportedAt: new Date().toISOString()`. -/
def exportN (s : StateN) (now : String) : ExportDocN :=
  { projects := s.projects, tasks := s.tasks, exportedAt := now }

/-- `INSERT INTO projects (id, name) VALUES (?, ?)` during import: fails on a
duplicate primary key, otherwise appends with a fresh `created_at`. -/
def insertProjectN (now : Nat) (tbl : List ProjectN) (p : ProjectN) :
    Option (List ProjectN) :=
  if tbl.any (fun q => q.id == p.id) then none
  else some (tbl ++ [{ id := p.id, name := p.name, created_at := now }])

/-- `INSERT INTO tasks (id, project_id, name, description, priority,
deadline, completed)` during import: fails on a duplicate primary key,
otherwise appends with a fresh `created_at`. -/
def insertTaskN (now : Nat) (tbl : List TaskN) (t : TaskN) :
    Option (List TaskN) :=
  if tbl.any (fun q => q.id == t.id) then none
  else some (tbl ++ [{ t with created_at := now }])

/-- Run the INSERT statements of an import loop in order; a failing statement
stops the loop and leaves the rows inserted so far in place. -/
def runInserts {α σ : Type} (step : σ → α → Option σ) : σ → List α → Bool × σ
  | s, [] => (true, s)
  | s, a :: as =>
    match step s a with
    | none => (false, s)
    | some s2 => runInserts step s2 as

/-- `POST /api/import` (part_000 lines 232-261): 400 `Invalid data format`
when either field is not an array (modelled as `none`), otherwise delete
every task and project, then insert the supplied projects and then the
supplied tasks in array order; a failing INSERT answers 500 with the store
left as the statements so far made it. -/
def importData (ps : Option (List ProjectN)) (ts : Option (List TaskN))
    (now : Nat) (st : StateN) : Resp Unit × StateN :=
  match ps, ts with
  | some ps, some ts =>
    match runInserts (insertProjectN now) [] ps with
    | (true, prj) =>
      match runInserts (insertTaskN now) [] ts with
      | (true, tsk) => (.ok (), { projects := prj, tasks := tsk })
      | (false, tsk) => (.err 500, { projects := prj, tasks := tsk })
    | (false, prj) => (.err 500, { projects := prj, tasks := [] })
  | _, _ => (.err 400, st)

/-- Identity of a project ignoring the server-assigned timestamp. -/
def projKey (p : ProjectN) : String × String := (p.id, p.name)

/-- Identity of a task ignoring the server-assigned timestamp. -/
def taskKey (t : TaskN) :
    String × String × String × String × String × String × Nat :=
  (t.id, t.project_id, t.name, t.description, t.priority, t.deadline,
   t.completed)

end Legacy

/-- How one user row should look after a profile update: the caller's row
takes whichever of nickname/password were supplied (JS-truthy), keeping
every other column; other rows are untouched. -/
def profileApply (uid : String) (nn pw : Option String) (u : User) : User :=
  if u.id == uid then
    { u with nickname := suppliedVal nn u.nickname,
             password := suppliedVal pw u.password }
  else u

/-- Concrete store for the `deleteProject_cascade` witness: user `a` owns
project `p1` with two tasks and project `p2` with one task. -/
def dbC3 : DB :=
  { users := [],
    projects := [{ id := "p1", user_id := "a", name := "Home",
                   created_at := 0 },
                 { id := "p2", user_id := "a", name := "Work",
                   created_at := 0 }],
    tasks := [{ id := "t1", user_id := "a", project_id := "p1", name := "n1",
                description := "", priority := "low",
                deadline := "2026-01-01", completed := 0, created_at := 0 },
              { id := "t2", user_id := "a", project_id := "p1", name := "n2",
                description := "", priority := "low",
                deadline := "2026-01-02", completed := 1, created_at := 0 },
              { id := "t3", user_id := "a", project_id := "p2", name := "n3",
                description := "", priority := "low",
                deadline := "2026-01-03", completed := 0, created_at := 0 }] }

/-- Row actually stored when the import loop re-inserts a project: only
(id, name) are supplied, `created_at` is server-assigned. -/
def normP (now : Nat) (p : Legacy.ProjectN) : Legacy.ProjectN :=
  { id := p.id, name := p.name, created_at := now }

/-- Row actually stored when the import loop re-inserts a task: all fields
but `created_at` are supplied, `created_at` is server-assigned. -/
def normT (now : Nat) (t : Legacy.TaskN) : Legacy.TaskN :=
  { t with created_at := now }

/-- Concrete legacy store for the round-trip witness. -/
def stC6 : Legacy.StateN :=
  { projects := [{ id := "p1", name := "Personal", created_at := 1 },
                 { id := "p2", name := "Work", created_at := 2 }],
    tasks := [{ id := "t1", project_id := "p1", name := "Buy groceries",
                description := "Milk", priority := "high",
                deadline := "2026-01-01", completed := 0, created_at := 1 },
              { id := "t2", project_id := "p2", name := "Email report",
                description := "", priority := "medium",
                deadline := "2026-01-02", completed := 1, created_at := 2 }] }

theorem matchesAt_self_append (pat l : List Char) :
    matchesAt pat (pat ++ l) = true := by
  induction pat with
  | nil => rfl
  | cons c cs ih => simp [matchesAt, ih]

theorem stripFirst_self_append (pat l : List Char) :
    stripFirst pat (pat ++ l) = l := by
  cases pat with
  | nil => cases l <;> simp [stripFirst, matchesAt]
  | cons c cs =>
    have h := matchesAt_self_append (c :: cs) l
    rw [List.cons_append] at h
    show stripFirst (c :: cs) (c :: (cs ++ l)) = l
    rw [stripFirst, if_pos h]
    show (c :: (cs ++ l)).drop (cs.length + 1) = l
    simp [List.drop_left cs l]

theorem stripFirst_no_occurrence (pat : List Char) :
    ∀ l : List Char, hasSub pat l = false → stripFirst pat l = l := by
  intro l
  induction l with
  | nil => intro _; rfl
  | cons c cs ih =>
    intro h
    rw [hasSub, Bool.or_eq_false_iff] at h
    rw [stripFirst, if_neg (by simp [h.1]), ih h.2]

theorem mk_data_eq (s : String) : String.mk s.data = s := by
  cases s; rfl

/-- C7: for every request to a protected route, a missing bearer token or a
token outside the session registry yields 401 with the store untouched and
the handler (all further processing) never invoked, for every possible
handler; otherwise the handler runs with the user id the registry maps the
token to. The gate itself only reads the registry (`requireAuth` takes the
registry as a plain input and returns only a response, so it cannot change
it). -/
theorem requireAuth_gate {α : Type} (handler : String → DB → Resp α × DB)
    (sessions : Sessions) (auth : Option String) (db : DB) :
    (auth = none → protectedRoute handler sessions auth db = (.err 401, db)) ∧
    (∀ h, auth = some h → replaceBearer h = "" →
      protectedRoute handler sessions auth db = (.err 401, db)) ∧
    (∀ h, auth = some h → replaceBearer h ≠ "" →
      List.lookup (replaceBearer h) sessions = none →
      protectedRoute handler sessions auth db = (.err 401, db)) ∧
    (∀ h uid, auth = some h → replaceBearer h ≠ "" →
      List.lookup (replaceBearer h) sessions = some uid →
      protectedRoute handler sessions auth db = handler uid db) := by
  refine ⟨?_, ?_, ?_, ?_⟩
  · intro h
    subst h
    rfl
  · intro hd hs he
    subst hs
    simp [protectedRoute, requireAuth, he]
  · intro hd hs hne hl
    subst hs
    simp [protectedRoute, requireAuth, hne, hl]
  · intro hd uid hs hne hl
    subst hs
    simp [protectedRoute, requireAuth, hne, hl]

/-- Witness for `requireAuth_gate` at a concrete registry, header and store. -/
theorem requireAuth_gate_witness :
    protectedRoute (fun uid db => (.ok uid, db)) [("tok123", "u1")]
      (some "Bearer tok123")
      { users := [], projects := [], tasks := [] } =
      (.ok "u1", { users := [], projects := [], tasks := [] }) := by
  have h := (requireAuth_gate (fun uid db => (.ok uid, db)) [("tok123", "u1")]
    (some "Bearer tok123")
    { users := [], projects := [], tasks := [] }).2.2.2
      "Bearer tok123" "u1" rfl (by decide) (by decide)
  exact h

/-- C10: the gate accepts a registered token presented without the
`Bearer ` prefix: for a registry token not containing the literal substring
`Bearer `, the bare header and the prefixed header resolve to the same
user, because `requireAuth` merely deletes the first occurrence of
`Bearer ` from the header before the registry lookup. -/
theorem bearer_prefix_optional (sessions : Sessions) (t uid : String)
    (ht : t ≠ "") (hsub : hasSub "Bearer ".data t.data = false)
    (hmem : List.lookup t sessions = some uid) :
    requireAuth sessions (some t) = .ok uid ∧
    requireAuth sessions (some ("Bearer " ++ t)) = .ok uid := by
  have hbare : replaceBearer t = t := by
    rw [replaceBearer, stripFirst_no_occurrence _ _ hsub, mk_data_eq]
  have hpref : replaceBearer ("Bearer " ++ t) = t := by
    rw [replaceBearer, String.data_append, stripFirst_self_append, mk_data_eq]
  constructor
  · simp [requireAuth, hbare, ht, hmem]
  · simp [requireAuth, hpref, ht, hmem]

/-- Witness for `bearer_prefix_optional` at a concrete registry and token. -/
theorem bearer_prefix_optional_witness :
    requireAuth [("abc123", "u7")] (some "abc123") = .ok "u7" ∧
    requireAuth [("abc123", "u7")] (some ("Bearer " ++ "abc123")) = .ok "u7" :=
  bearer_prefix_optional [("abc123", "u7")] "abc123" "u7"
    (by decide) (by decide) (by decide)

/-- C5 counterexample: at a concrete store whose caller owns one project and
one task, the document returned by the authenticated `GET /api/export` does
carry the projects and tasks but carries no export timestamp field, refuting
the claim that the export document contains one. -/
theorem export_timestamp_cex :
    (exportData "u1"
      { users := [],
        projects := [{ id := "p1", user_id := "u1", name := "Home",
                       created_at := 5 }],
        tasks := [{ id := "t1", user_id := "u1", project_id := "p1",
                    name := "Buy milk", description := "", priority := "high",
                    deadline := "2025-12-31", completed := 0,
                    created_at := 5 }] }).projects =
      [{ id := "p1", user_id := "u1", name := "Home", created_at := 5 }] ∧
    (exportData "u1"
      { users := [],
        projects := [{ id := "p1", user_id := "u1", name := "Home",
                       created_at := 5 }],
        tasks := [{ id := "t1", user_id := "u1", project_id := "p1",
                    name := "Buy milk", description := "", priority := "high",
                    deadline := "2025-12-31", completed := 0,
                    created_at := 5 }] }).tasks =
      [{ id := "t1", user_id := "u1", project_id := "p1", name := "Buy milk",
         description := "", priority := "high", deadline := "2025-12-31",
         completed := 0, created_at := 5 }] ∧
    (exportData "u1"
      { users := [],
        projects := [{ id := "p1", user_id := "u1", name := "Home",
                       created_at := 5 }],
        tasks := [{ id := "t1", user_id := "u1", project_id := "p1",
                    name := "Buy milk", description := "", priority := "high",
                    deadline := "2025-12-31", completed := 0,
                    created_at := 5 }] }).exportedAt = none := by
  refine ⟨by decide, by decide, rfl⟩

/-- C5 amended: the authenticated export returns one document holding exactly
the caller's projects and exactly the caller's tasks, but no export
timestamp; the `exportedAt` timestamp is produced only by the legacy
non-authenticated variant's export, which also returns the whole store. -/
theorem export_contents (uid : String) (db : DB) :
    (exportData uid db).exportedAt = none ∧
    (∀ p, p ∈ (exportData uid db).projects ↔
      p ∈ db.projects ∧ p.user_id = uid) ∧
    (∀ t, t ∈ (exportData uid db).tasks ↔ t ∈ db.tasks ∧ t.user_id = uid) ∧
    (∀ (s : Legacy.StateN) (now : String),
      (Legacy.exportN s now).exportedAt = now ∧
      (Legacy.exportN s now).projects = s.projects ∧
      (Legacy.exportN s now).tasks = s.tasks) := by
  refine ⟨rfl, ?_, ?_, fun s now => ⟨rfl, rfl, rfl⟩⟩
  · intro p
    simp [exportData, List.mem_filter]
  · intro t
    simp [exportData, List.mem_filter]

/-- Witness for `export_contents` at a concrete store. -/
theorem export_contents_witness :
    ({ id := "p1", user_id := "u1", name := "Home", created_at := 5 } :
        Project) ∈
      (exportData "u1"
        { users := [],
          projects := [{ id := "p1", user_id := "u1", name := "Home",
                         created_at := 5 },
                       { id := "p2", user_id := "u2", name := "Other",
                         created_at := 6 }],
          tasks := [] }).projects :=
  ((export_contents "u1"
      { users := [],
        projects := [{ id := "p1", user_id := "u1", name := "Home",
                       created_at := 5 },
                     { id := "p2", user_id := "u2", name := "Other",
                       created_at := 6 }],
        tasks := [] }).2.1 _).mpr ⟨by decide, rfl⟩

/-- C2: with unique project ids, a task-creation request by user `A` naming a
project owned by `B ≠ A` answers 400 and inserts nothing (the store is
returned unchanged); conversely any successful task creation found a project
with the supplied id owned by the caller. -/
theorem createTask_requires_owned_project (db : DB) (body : TaskBody)
    (now : Nat) :
    (∀ A B (P : Project), (db.projects.map (fun p => p.id)).Nodup →
      P ∈ db.projects → P.user_id = B → A ≠ B → body.project_id = P.id →
      createTask A body now db = (.err 400, db)) ∧
    (∀ uid r db2, createTask uid body now db = (.ok r, db2) →
      ∃ p ∈ db.projects, p.id = body.project_id ∧ p.user_id = uid) := by
  constructor
  · intro A B P hnodup hP hPB hAB hpid
    have hnone : findProject db body.project_id A = none := by
      cases hf : findProject db body.project_id A with
      | none => rfl
      | some q =>
        exfalso
        rw [findProject] at hf
        have hqpred := List.find?_some hf
        have hqmem := List.mem_of_find?_eq_some hf
        rw [Bool.and_eq_true, beq_iff_eq, beq_iff_eq] at hqpred
        have hqP : q = P :=
          List.inj_on_of_nodup_map hnodup hqmem hP (by rw [hqpred.1, hpid])
        exact hAB (by rw [← hqpred.2, hqP, hPB])
    simp [createTask, hnone]
  · intro uid r db2 hok
    rw [createTask] at hok
    cases hf : findProject db body.project_id uid with
    | none =>
      rw [hf] at hok
      simp at hok
    | some p =>
      refine ⟨p, List.mem_of_find?_eq_some hf, ?_⟩
      have hp := List.find?_some hf
      rw [Bool.and_eq_true, beq_iff_eq, beq_iff_eq] at hp
      exact ⟨hp.1, hp.2⟩

/-- Witness for `createTask_requires_owned_project`: user `a` naming user
`b`'s project gets 400 and the store is unchanged. -/
theorem createTask_requires_owned_project_witness :
    createTask "a"
      { id := "t9", project_id := "p2", name := "sneak", description := none,
        priority := "low", deadline := "2026-01-01" } 7
      { users := [],
        projects := [{ id := "p1", user_id := "a", name := "Mine",
                       created_at := 0 },
                     { id := "p2", user_id := "b", name := "Theirs",
                       created_at := 0 }],
        tasks := [] } =
    (.err 400,
      { users := [],
        projects := [{ id := "p1", user_id := "a", name := "Mine",
                       created_at := 0 },
                     { id := "p2", user_id := "b", name := "Theirs",
                       created_at := 0 }],
        tasks := [] }) :=
  (createTask_requires_owned_project _ _ 7).1 "a" "b"
    { id := "p2", user_id := "b", name := "Theirs", created_at := 0 }
    (by decide) (by decide) rfl (by decide) rfl

/-- C8: the project update and delete handlers run the (id, owner) lookup
before any mutation: when the caller owns no project with the requested id
both answer 404 with the store completely unchanged; consequently (given
unique project ids) a project owned by another user is never updated or
deleted, however its id was guessed. -/
theorem project_ownership_gate (db : DB) (uid pid name : String) :
    (findProject db pid uid = none →
      updateProject uid pid name db = (.err 404, db) ∧
      deleteProject uid pid db = (.err 404, db)) ∧
    (∀ B (P : Project), (db.projects.map (fun p => p.id)).Nodup →
      P ∈ db.projects → P.user_id = B → uid ≠ B → P.id = pid →
      updateProject uid pid name db = (.err 404, db) ∧
      deleteProject uid pid db = (.err 404, db)) := by
  have key : ∀ B (P : Project), (db.projects.map (fun p => p.id)).Nodup →
      P ∈ db.projects → P.user_id = B → uid ≠ B → P.id = pid →
      findProject db pid uid = none := by
    intro B P hnodup hP hPB hAB hpid
    cases hf : findProject db pid uid with
    | none => rfl
    | some q =>
      exfalso
      rw [findProject] at hf
      have hqpred := List.find?_some hf
      have hqmem := List.mem_of_find?_eq_some hf
      rw [Bool.and_eq_true, beq_iff_eq, beq_iff_eq] at hqpred
      have hqP : q = P :=
        List.inj_on_of_nodup_map hnodup hqmem hP (by rw [hqpred.1, hpid])
      exact hAB (by rw [← hqpred.2, hqP, hPB])
  constructor
  · intro hnone
    exact ⟨by simp [updateProject, hnone], by simp [deleteProject, hnone]⟩
  · intro B P hnodup hP hPB hAB hpid
    have hnone := key B P hnodup hP hPB hAB hpid
    exact ⟨by simp [updateProject, hnone], by simp [deleteProject, hnone]⟩

/-- Witness for `project_ownership_gate`: user `a` guessing user `b`'s
project id gets 404 from both update and delete, store unchanged. -/
theorem project_ownership_gate_witness :
    updateProject "a" "p2" "newname"
      { users := [],
        projects := [{ id := "p2", user_id := "b", name := "Theirs",
                       created_at := 0 }],
        tasks := [] } =
      (.err 404,
        { users := [],
          projects := [{ id := "p2", user_id := "b", name := "Theirs",
                         created_at := 0 }],
          tasks := [] }) ∧
    deleteProject "a" "p2"
      { users := [],
        projects := [{ id := "p2", user_id := "b", name := "Theirs",
                       created_at := 0 }],
        tasks := [] } =
      (.err 404,
        { users := [],
          projects := [{ id := "p2", user_id := "b", name := "Theirs",
                         created_at := 0 }],
          tasks := [] }) :=
  (project_ownership_gate _ "a" "p2" "newname").2 "b"
    { id := "p2", user_id := "b", name := "Theirs", created_at := 0 }
    (by decide) (by decide) rfl (by decide) rfl

theorem map_eq_self {α : Type} (l : List α) (f : α → α)
    (h : ∀ a ∈ l, f a = a) : l.map f = l := by
  induction l with
  | nil => rfl
  | cons x xs ih =>
    simp only [List.map_cons, h x (by simp)]
    rw [ih (fun a ha => h a (by simp [ha]))]

theorem map_pointwise {α β : Type} (l : List α) (f g : α → β)
    (h : ∀ a, f a = g a) : l.map f = l.map g :=
  congrArg l.map (funext h)

/-- C9: the profile update always succeeds, never touches projects or tasks,
and rewrites the user table exactly by `profileApply`: a supplied (truthy)
nickname changes only the caller's nickname, a supplied password only the
caller's password, an omitted field keeps its prior value, every other user
row is untouched, and supplying neither field leaves the whole store
unchanged. -/
theorem updateProfile_frame (db : DB) (uid : String) (nn pw : Option String) :
    (updateProfile uid nn pw db).1 = .ok () ∧
    (updateProfile uid nn pw db).2.projects = db.projects ∧
    (updateProfile uid nn pw db).2.tasks = db.tasks ∧
    (updateProfile uid nn pw db).2.users =
      db.users.map (profileApply uid nn pw) ∧
    (supplied nn = false → supplied pw = false →
      (updateProfile uid nn pw db).2 = db) := by
  have husers : (updateProfile uid nn pw db).2.users =
      db.users.map (profileApply uid nn pw) := by
    rcases nn with _ | v
    · rcases pw with _ | w
      · show db.users = db.users.map (profileApply uid none none)
        refine (map_eq_self _ _ ?_).symm
        intro u _
        unfold profileApply
        split <;> rfl
      · show (if w ≠ "" then _ else _) = db.users.map (profileApply uid none (some w))
        by_cases hw : w = ""
        · simp only [hw, ne_eq, not_true_eq_false, if_false]
          refine (map_eq_self _ _ ?_).symm
          intro u _
          unfold profileApply suppliedVal
          split <;> rfl
        · simp only [ne_eq, hw, not_false_eq_true, if_true]
          refine map_pointwise _ _ _ ?_
          intro u
          unfold profileApply suppliedVal
          by_cases h : (u.id == uid) = true <;> simp [h, hw]
    · rcases pw with _ | w
      · show (if v ≠ "" then _ else _) = db.users.map (profileApply uid (some v) none)
        by_cases hv : v = ""
        · simp only [hv, ne_eq, not_true_eq_false, if_false]
          refine (map_eq_self _ _ ?_).symm
          intro u _
          unfold profileApply suppliedVal
          split <;> rfl
        · simp only [ne_eq, hv, not_false_eq_true, if_true]
          refine map_pointwise _ _ _ ?_
          intro u
          unfold profileApply suppliedVal
          by_cases h : (u.id == uid) = true <;> simp [h, hv]
      · by_cases hv : v = "" <;> by_cases hw : w = "" <;>
          simp only [updateProfile, ne_eq, hv, hw, not_true_eq_false,
            not_false_eq_true, if_true, if_false, List.map_map]
        · refine (map_eq_self _ _ ?_).symm
          intro u _
          unfold profileApply suppliedVal
          split <;> rfl
        · refine map_pointwise _ _ _ ?_
          intro u
          by_cases h : (u.id == uid) = true <;>
            simp [profileApply, suppliedVal, h, hw]
        · refine map_pointwise _ _ _ ?_
          intro u
          by_cases h : (u.id == uid) = true <;>
            simp [profileApply, suppliedVal, h, hv]
        · refine map_pointwise _ _ _ ?_
          intro u
          by_cases h : u.id = uid <;>
            simp [profileApply, suppliedVal, h, hv, hw]
  refine ⟨rfl, rfl, rfl, husers, ?_⟩
  intro hnn hpw
  have hid : ∀ u ∈ db.users, profileApply uid nn pw u = u := by
    intro u _
    rcases nn with _ | v
    · rcases pw with _ | w
      · unfold profileApply
        split <;> rfl
      · have hw : w = "" := by
          by_contra hc
          simp [supplied, hc] at hpw
        unfold profileApply suppliedVal
        subst hw
        split <;> rfl
    · have hv : v = "" := by
        by_contra hc
        simp [supplied, hc] at hnn
      rcases pw with _ | w
      · unfold profileApply suppliedVal
        subst hv
        split <;> rfl
      · have hw : w = "" := by
          by_contra hc
          simp [supplied, hc] at hpw
        unfold profileApply suppliedVal
        subst hv
        subst hw
        split <;> rfl
  have hu : (updateProfile uid nn pw db).2.users = db.users := by
    rw [husers, map_eq_self _ _ hid]
  calc (updateProfile uid nn pw db).2
      = { users := (updateProfile uid nn pw db).2.users,
          projects := db.projects, tasks := db.tasks } := rfl
    _ = { users := db.users, projects := db.projects, tasks := db.tasks } := by
          rw [hu]
    _ = db := rfl

/-- Witness for `updateProfile_frame`: a request supplying neither field
succeeds and leaves a concrete store entirely unchanged. -/
theorem updateProfile_frame_witness :
    supplied none = false ∧
    (updateProfile "u1" none none
      { users := [{ id := "u1", username := "alice", nickname := "Alice",
                    password := "pw1", created_at := 3 }],
        projects := [], tasks := [] }).2 =
      { users := [{ id := "u1", username := "alice", nickname := "Alice",
                    password := "pw1", created_at := 3 }],
        projects := [], tasks := [] } :=
  ⟨rfl,
    (updateProfile_frame
      { users := [{ id := "u1", username := "alice", nickname := "Alice",
                    password := "pw1", created_at := 3 }],
        projects := [], tasks := [] } "u1" none none).2.2.2.2 rfl rfl⟩

theorem findTask_map (db : DB) (tid uid : String) (g : TaskRow → TaskRow)
    (hg : ∀ t, (g t).id = t.id ∧ (g t).user_id = t.user_id) :
    findTask { db with tasks := db.tasks.map g } tid uid =
      (findTask db tid uid).map g := by
  have hp : ((fun t : TaskRow => t.id == tid && t.user_id == uid) ∘ g) =
      (fun t : TaskRow => t.id == tid && t.user_id == uid) := by
    funext t
    show ((g t).id == tid && (g t).user_id == uid) =
      (t.id == tid && t.user_id == uid)
    rw [(hg t).1, (hg t).2]
  show (db.tasks.map g).find? (fun t => t.id == tid && t.user_id == uid) =
    (db.tasks.find? (fun t => t.id == tid && t.user_id == uid)).map g
  rw [List.find?_map, hp]

theorem toggle_toggle_tasks (l : List TaskRow) (tid : String) (t0 : TaskRow)
    (hnodup : (l.map (fun t => t.id)).Nodup) (hmem : t0 ∈ l)
    (ht0 : t0.id = tid) :
    (l.map (fun t =>
      if t.id == tid then { t with completed := 1 - t0.completed } else t)).map
      (fun t =>
        if t.id == tid then { t with completed := t0.completed } else t) = l := by
  rw [List.map_map]
  apply map_eq_self
  intro t ht
  simp only [Function.comp]
  by_cases htid : (t.id == tid) = true
  · have hteq : t = t0 := by
      refine List.inj_on_of_nodup_map hnodup ht hmem ?_
      rw [beq_iff_eq] at htid
      rw [htid, ht0]
    subst hteq
    simp [htid]
  · simp [htid]

/-- C4: toggling a task not owned by the caller answers 404 and changes
nothing; toggling an owned task flips `completed` between exactly the two
states 0 and 1; and (with unique task ids, as the primary key guarantees)
toggling the same owned task twice returns the store to its original
value. -/
theorem toggle_involution (db : DB) (uid tid : String) (t0 : TaskRow)
    (hnodup : (db.tasks.map (fun t => t.id)).Nodup) :
    (findTask db tid uid = none → toggleTask uid tid db = (.err 404, db)) ∧
    (findTask db tid uid = some t0 → t0.completed = 0 →
      (toggleTask uid tid db).1 = .ok 1) ∧
    (findTask db tid uid = some t0 → t0.completed = 1 →
      (toggleTask uid tid db).1 = .ok 0) ∧
    (findTask db tid uid = some t0 → (t0.completed = 0 ∨ t0.completed = 1) →
      (toggleTask uid tid ((toggleTask uid tid db).2)).2 = db) := by
  refine ⟨?_, ?_, ?_, ?_⟩
  · intro h
    simp [toggleTask, h]
  · intro h hc
    simp [toggleTask, h, hc]
  · intro h hc
    simp [toggleTask, h, hc]
  · intro h hc
    have hpred := List.find?_some (show db.tasks.find?
      (fun t => t.id == tid && t.user_id == uid) = some t0 from h)
    rw [Bool.and_eq_true, beq_iff_eq, beq_iff_eq] at hpred
    have hmem0 : t0 ∈ db.tasks := List.mem_of_find?_eq_some
      (show db.tasks.find?
        (fun t => t.id == tid && t.user_id == uid) = some t0 from h)
    have ht0id : t0.id = tid := hpred.1
    have hflip1 : (if t0.completed ≠ 0 then (0 : Nat) else 1) =
        1 - t0.completed := by
      rcases hc with hc | hc <;> simp [hc]
    have hsnd1 : (toggleTask uid tid db).2 =
        { db with tasks := db.tasks.map (fun t =>
          if t.id == tid then { t with completed := 1 - t0.completed }
          else t) } := by
      rw [toggleTask.eq_def, h, ← hflip1]
    have hfind1 : findTask { db with tasks := db.tasks.map (fun t =>
        if t.id == tid then { t with completed := 1 - t0.completed }
        else t) } tid uid = some { t0 with completed := 1 - t0.completed } := by
      rw [findTask_map db tid uid _ (by
        intro t
        constructor <;> (by_cases htid : (t.id == tid) = true <;> simp [htid])),
        h]
      simp [ht0id]
    have hflip2 : (if (1 - t0.completed : Nat) ≠ 0 then (0 : Nat) else 1) =
        t0.completed := by
      rcases hc with hc | hc <;> simp [hc]
    have hsnd2 : (toggleTask uid tid { db with tasks := db.tasks.map (fun t =>
        if t.id == tid then { t with completed := 1 - t0.completed }
        else t) }).2 =
        { db with tasks := (db.tasks.map (fun t =>
          if t.id == tid then { t with completed := 1 - t0.completed }
          else t)).map (fun t =>
          if t.id == tid then
            { t with completed := if (1 - t0.completed : Nat) ≠ 0 then 0 else 1 }
          else t) } := by
      rw [toggleTask.eq_def, hfind1]
    rw [hflip2] at hsnd2
    calc (toggleTask uid tid ((toggleTask uid tid db).2)).2
        = (toggleTask uid tid { db with tasks := db.tasks.map (fun t =>
            if t.id == tid then { t with completed := 1 - t0.completed }
            else t) }).2 := by rw [hsnd1]
      _ = { db with tasks := (db.tasks.map (fun t =>
            if t.id == tid then { t with completed := 1 - t0.completed }
            else t)).map (fun t =>
            if t.id == tid then { t with completed := t0.completed }
            else t) } := hsnd2
      _ = { db with tasks := db.tasks } := by
            rw [toggle_toggle_tasks db.tasks tid t0 hnodup hmem0 ht0id]
      _ = db := rfl

/-- Witness for `toggle_involution`: a concrete owned task toggles 0 → 1 and
back to the original store. -/
theorem toggle_involution_witness :
    (toggleTask "a" "t1"
      ((toggleTask "a" "t1"
        { users := [],
          projects := [{ id := "p1", user_id := "a", name := "Home",
                         created_at := 0 }],
          tasks := [{ id := "t1", user_id := "a", project_id := "p1",
                      name := "n", description := "", priority := "low",
                      deadline := "2026-01-01", completed := 0,
                      created_at := 0 }] }).2)).2 =
      { users := [],
        projects := [{ id := "p1", user_id := "a", name := "Home",
                       created_at := 0 }],
        tasks := [{ id := "t1", user_id := "a", project_id := "p1",
                    name := "n", description := "", priority := "low",
                    deadline := "2026-01-01", completed := 0,
                    created_at := 0 }] } :=
  (toggle_involution
    { users := [],
      projects := [{ id := "p1", user_id := "a", name := "Home",
                     created_at := 0 }],
      tasks := [{ id := "t1", user_id := "a", project_id := "p1",
                  name := "n", description := "", priority := "low",
                  deadline := "2026-01-01", completed := 0,
                  created_at := 0 }] } "a" "t1"
    { id := "t1", user_id := "a", project_id := "p1", name := "n",
      description := "", priority := "low", deadline := "2026-01-01",
      completed := 0, created_at := 0 }
    (by decide)).2.2.2 (by decide) (Or.inl rfl)

theorem count_split (U pid : String) :
    ∀ l : List TaskRow, (∀ t ∈ l, t.project_id = pid → t.user_id = U) →
    (l.filter (fun t => !(t.project_id == pid))).countP
        (fun t => t.user_id == U) +
      (l.filter (fun t => t.project_id == pid)).length =
      l.countP (fun t => t.user_id == U) := by
  intro l
  induction l with
  | nil => intro _; rfl
  | cons t ts ih =>
    intro h
    have hts := ih (fun a ha hp => h a (List.mem_cons_of_mem _ ha) hp)
    by_cases hp : (t.project_id == pid) = true
    · have hu : (t.user_id == U) = true := by
        rw [beq_iff_eq]
        exact h t (List.mem_cons_self _ _) (by rwa [beq_iff_eq] at hp)
      simp [List.filter_cons, List.countP_cons, hp, hu]
      omega
    · rw [Bool.not_eq_true] at hp
      simp [List.filter_cons, List.countP_cons, hp]
      by_cases hu : t.user_id = U <;> simp [hu] <;> omega

/-- C3: deleting a project the caller owns succeeds and removes exactly that
project's row and exactly the tasks referencing it: every surviving project
and task was already present, no project with the deleted id and no task of
the deleted project survives, every other project and task survives, users
are untouched, and — when every task referencing the project belongs to its
owner, as the ownership invariant provides — the owner's task count drops by
exactly the number N of tasks the project contained. -/
theorem deleteProject_cascade (db : DB) (U pid : String) (P : Project)
    (hP : P ∈ db.projects) (hPid : P.id = pid) (hPu : P.user_id = U)
    (hown : ∀ t ∈ db.tasks, t.project_id = pid → t.user_id = U) :
    (deleteProject U pid db).1 = .ok () ∧
    (∀ q ∈ (deleteProject U pid db).2.projects,
      q ∈ db.projects ∧ q.id ≠ pid) ∧
    (∀ q ∈ db.projects, q.id ≠ pid →
      q ∈ (deleteProject U pid db).2.projects) ∧
    (∀ t ∈ (deleteProject U pid db).2.tasks,
      t ∈ db.tasks ∧ t.project_id ≠ pid) ∧
    (∀ t ∈ db.tasks, t.project_id ≠ pid →
      t ∈ (deleteProject U pid db).2.tasks) ∧
    (deleteProject U pid db).2.users = db.users ∧
    ((deleteProject U pid db).2.tasks.countP (fun t => t.user_id == U) +
      (db.tasks.filter (fun t => t.project_id == pid)).length =
      db.tasks.countP (fun t => t.user_id == U)) := by
  have hex : ∃ q, findProject db pid U = some q := by
    cases hf : findProject db pid U with
    | some q => exact ⟨q, rfl⟩
    | none =>
      exfalso
      rw [findProject] at hf
      have := List.find?_eq_none.mp hf P hP
      simp [hPid, hPu] at this
  obtain ⟨q, hq⟩ := hex
  have hres : deleteProject U pid db = (.ok (), { db with
      tasks := db.tasks.filter (fun t => !(t.project_id == pid)),
      projects := db.projects.filter (fun p => !(p.id == pid)) }) := by
    rw [deleteProject.eq_def, hq]
  refine ⟨by rw [hres], ?_, ?_, ?_, ?_, by rw [hres], ?_⟩
  · intro q' hq'
    rw [hres] at hq'
    have := List.mem_filter.mp hq'
    refine ⟨this.1, ?_⟩
    have h2 := this.2
    simpa using h2
  · intro q' hq' hne
    rw [hres]
    exact List.mem_filter.mpr ⟨hq', by simpa using hne⟩
  · intro t ht
    rw [hres] at ht
    have := List.mem_filter.mp ht
    refine ⟨this.1, ?_⟩
    simpa using this.2
  · intro t ht hne
    rw [hres]
    exact List.mem_filter.mpr ⟨ht, by simpa using hne⟩
  · rw [hres]
    exact count_split U pid db.tasks hown

/-- Witness for `deleteProject_cascade`: deleting `p1` from `dbC3` succeeds
and drops the owner's task count by exactly the 2 tasks `p1` contained. -/
theorem deleteProject_cascade_witness :
    (deleteProject "a" "p1" dbC3).1 = .ok () ∧
    ((deleteProject "a" "p1" dbC3).2.tasks.countP
        (fun t => t.user_id == "a") +
      (dbC3.tasks.filter (fun t => t.project_id == "p1")).length =
      dbC3.tasks.countP (fun t => t.user_id == "a")) := by
  have h := deleteProject_cascade dbC3 "a" "p1"
    { id := "p1", user_id := "a", name := "Home", created_at := 0 }
    (by decide) rfl rfl (by decide)
  exact ⟨h.1, h.2.2.2.2.2.2⟩

/-- C1 counterexample: starting from a store satisfying the task/project
ownership invariant, user `a` updates their own task `t1` supplying user
`b`'s project `p2` as `project_id`; the update succeeds and the invariant is
broken, refuting the claim that every operation — in particular
PUT /api/tasks/:id for every supplied project_id — preserves it. -/
theorem invariant_not_preserved_cex :
    taskProjOk
      { users := [],
        projects := [{ id := "p1", user_id := "a", name := "A", created_at := 0 },
                     { id := "p2", user_id := "b", name := "B", created_at := 0 }],
        tasks := [{ id := "t1", user_id := "a", project_id := "p1",
                    name := "n", description := "", priority := "low",
                    deadline := "d", completed := 0, created_at := 0 }] } = true ∧
    (updateTask "a" "t1"
      { name := "n", description := "", priority := "low", deadline := "d",
        completed := false, project_id := "p2" }
      { users := [],
        projects := [{ id := "p1", user_id := "a", name := "A", created_at := 0 },
                     { id := "p2", user_id := "b", name := "B", created_at := 0 }],
        tasks := [{ id := "t1", user_id := "a", project_id := "p1",
                    name := "n", description := "", priority := "low",
                    deadline := "d", completed := 0, created_at := 0 }] }).1 =
      .ok () ∧
    taskProjOk
      (updateTask "a" "t1"
        { name := "n", description := "", priority := "low", deadline := "d",
          completed := false, project_id := "p2" }
        { users := [],
          projects := [{ id := "p1", user_id := "a", name := "A", created_at := 0 },
                       { id := "p2", user_id := "b", name := "B", created_at := 0 }],
          tasks := [{ id := "t1", user_id := "a", project_id := "p1",
                      name := "n", description := "", priority := "low",
                      deadline := "d", completed := 0, created_at := 0 }] }).2 =
      false := by
  refine ⟨by decide, by decide, by decide⟩

/-- C1 amended: the task/project ownership invariant is preserved by task
create/toggle/delete, project create/update/delete, profile update and
registration; the task update operation preserves it only under the extra
condition (not checked by the code) that the supplied project_id names an
existing project owned by the caller. -/
theorem api_preserves_task_project_invariant (db : DB)
    (hinv : TaskProjInv db) :
    (∀ uid body now, TaskProjInv (createTask uid body now db).2) ∧
    (∀ uid tid, TaskProjInv (toggleTask uid tid db).2) ∧
    (∀ uid tid, TaskProjInv (deleteTask uid tid db).2) ∧
    (∀ uid pid name now, TaskProjInv (createProject uid pid name now db).2) ∧
    (∀ uid pid name, TaskProjInv (updateProject uid pid name db).2) ∧
    (∀ uid pid, TaskProjInv (deleteProject uid pid db).2) ∧
    (∀ uid nn pw, TaskProjInv (updateProfile uid nn pw db).2) ∧
    (∀ u n p i now, TaskProjInv (register u n p i now db).2) ∧
    (∀ uid tid body, (db.tasks.map (fun t => t.id)).Nodup →
      (∃ p ∈ db.projects, p.id = body.project_id ∧ p.user_id = uid) →
      TaskProjInv (updateTask uid tid body db).2) := by
  refine ⟨?_, ?_, ?_, ?_, ?_, ?_, ?_, ?_, ?_⟩
  · intro uid body now
    cases hf : findProject db body.project_id uid with
    | none => simpa [createTask, hf] using hinv
    | some p =>
      have hppred := List.find?_some (show db.projects.find?
        (fun q => q.id == body.project_id && q.user_id == uid) = some p from hf)
      rw [Bool.and_eq_true, beq_iff_eq, beq_iff_eq] at hppred
      have hpmem : p ∈ db.projects := List.mem_of_find?_eq_some
        (show db.projects.find?
          (fun q => q.id == body.project_id && q.user_id == uid) = some p
          from hf)
      by_cases hdup : (db.tasks.any fun t => t.id == body.id) = true
      · simpa [createTask, hf, hdup] using hinv
      · rw [Bool.not_eq_true] at hdup
        have hres : (createTask uid body now db).2 = { db with
            tasks := db.tasks ++
              [{ id := body.id, user_id := uid,
                 project_id := body.project_id, name := body.name,
                 description := (match body.description with
                   | some d => d
                   | none => ""),
                 priority := body.priority, deadline := body.deadline,
                 completed := 0, created_at := now }] } := by
          simp [createTask, hf, hdup]
        rw [hres]
        intro t ht
        rcases List.mem_append.mp ht with hold | hnew
        · exact hinv t hold
        · have hteq := List.mem_singleton.mp hnew
          subst hteq
          exact ⟨p, hpmem, hppred.1, hppred.2⟩
  · intro uid tid
    cases hf : findTask db tid uid with
    | none => simpa [toggleTask, hf] using hinv
    | some task =>
      have hres : (toggleTask uid tid db).2 = { db with
          tasks := db.tasks.map (fun t =>
            if t.id == tid then
              { t with completed := if task.completed ≠ 0 then 0 else 1 }
            else t) } := by
        rw [toggleTask.eq_def, hf]
      rw [hres]
      intro t ht
      rcases List.mem_map.mp ht with ⟨s, hs, hgs⟩
      obtain ⟨p, hp, hid, huid⟩ := hinv s hs
      refine ⟨p, hp, ?_, ?_⟩ <;> rw [← hgs] <;>
        by_cases h : (s.id == tid) = true <;> simp [h, hid, huid]
  · intro uid tid
    cases hf : findTask db tid uid with
    | none => simpa [deleteTask, hf] using hinv
    | some task =>
      have hres : (deleteTask uid tid db).2 = { db with
          tasks := db.tasks.filter (fun t => !(t.id == tid)) } := by
        rw [deleteTask.eq_def, hf]
      rw [hres]
      intro t ht
      exact hinv t (List.mem_filter.mp ht).1
  · intro uid pid name now
    by_cases hdup : (db.projects.any fun p => p.id == pid) = true
    · simpa [createProject, hdup] using hinv
    · rw [Bool.not_eq_true] at hdup
      have hres : (createProject uid pid name now db).2 = { db with
          projects := db.projects ++
            [{ id := pid, user_id := uid, name := name,
               created_at := now }] } := by
        simp [createProject, hdup]
      rw [hres]
      intro t ht
      obtain ⟨p, hp, hid, huid⟩ := hinv t ht
      exact ⟨p, List.mem_append_left _ hp, hid, huid⟩
  · intro uid pid name
    cases hf : findProject db pid uid with
    | none => simpa [updateProject, hf] using hinv
    | some q =>
      have hres : (updateProject uid pid name db).2 = { db with
          projects := db.projects.map (fun p =>
            if p.id == pid then { p with name := name } else p) } := by
        rw [updateProject.eq_def, hf]
      rw [hres]
      intro t ht
      obtain ⟨p, hp, hid, huid⟩ := hinv t ht
      refine ⟨if p.id == pid then { p with name := name } else p,
        List.mem_map_of_mem _ hp, ?_, ?_⟩ <;>
        split <;> simp [hid, huid]
  · intro uid pid
    cases hf : findProject db pid uid with
    | none => simpa [deleteProject, hf] using hinv
    | some q =>
      have hres : (deleteProject uid pid db).2 = { db with
          tasks := db.tasks.filter (fun t => !(t.project_id == pid)),
          projects := db.projects.filter (fun p => !(p.id == pid)) } := by
        rw [deleteProject.eq_def, hf]
      rw [hres]
      intro t ht
      have hmf := List.mem_filter.mp ht
      obtain ⟨p, hp, hid, huid⟩ := hinv t hmf.1
      refine ⟨p, List.mem_filter.mpr ⟨hp, ?_⟩, hid, huid⟩
      have htp : t.project_id ≠ pid := by simpa using hmf.2
      simp [hid, htp]
  · intro uid nn pw
    exact hinv
  · intro u n p i now
    rw [register.eq_def]
    split
    · exact hinv
    · split
      · exact hinv
      · exact hinv
  · intro uid tid body hnodup hproj
    cases hf : findTask db tid uid with
    | none => simpa [updateTask, hf] using hinv
    | some t1 =>
      have ht1pred := List.find?_some (show db.tasks.find?
        (fun t => t.id == tid && t.user_id == uid) = some t1 from hf)
      rw [Bool.and_eq_true, beq_iff_eq, beq_iff_eq] at ht1pred
      have ht1mem : t1 ∈ db.tasks := List.mem_of_find?_eq_some
        (show db.tasks.find?
          (fun t => t.id == tid && t.user_id == uid) = some t1 from hf)
      have hres : (updateTask uid tid body db).2 = { db with
          tasks := db.tasks.map (fun t =>
            if t.id == tid then
              { t with name := body.name, description := body.description,
                       priority := body.priority, deadline := body.deadline,
                       completed := if body.completed then 1 else 0,
                       project_id := body.project_id }
            else t) } := by
        rw [updateTask.eq_def, hf]
      rw [hres]
      intro t ht
      rcases List.mem_map.mp ht with ⟨s, hs, hgs⟩
      by_cases h : (s.id == tid) = true
      · have hseq : s = t1 := by
          refine List.inj_on_of_nodup_map hnodup hs ht1mem ?_
          rw [beq_iff_eq] at h
          rw [h, ht1pred.1]
        obtain ⟨p0, hp0, hpid0, hpu0⟩ := hproj
        refine ⟨p0, hp0, ?_, ?_⟩ <;> rw [← hgs] <;> simp [h, hpid0]
        rw [hpu0, hseq, ht1pred.2]
      · obtain ⟨p, hp, hid, huid⟩ := hinv s hs
        refine ⟨p, hp, ?_, ?_⟩ <;> rw [← hgs] <;> simp [h, hid, huid]

/-- Witness for `api_preserves_task_project_invariant`: updating a task with
a caller-owned project id keeps the invariant on a concrete store. -/
theorem api_preserves_task_project_invariant_witness :
    TaskProjInv
      (updateTask "a" "t1"
        { name := "n2", description := "", priority := "high",
          deadline := "d", completed := true, project_id := "p1" }
        { users := [],
          projects := [{ id := "p1", user_id := "a", name := "A",
                         created_at := 0 }],
          tasks := [{ id := "t1", user_id := "a", project_id := "p1",
                      name := "n", description := "", priority := "low",
                      deadline := "d", completed := 0,
                      created_at := 0 }] }).2 :=
  (api_preserves_task_project_invariant
    { users := [],
      projects := [{ id := "p1", user_id := "a", name := "A",
                     created_at := 0 }],
      tasks := [{ id := "t1", user_id := "a", project_id := "p1",
                  name := "n", description := "", priority := "low",
                  deadline := "d", completed := 0, created_at := 0 }] }
    (by unfold TaskProjInv; decide)).2.2.2.2.2.2.2.2 "a" "t1"
    { name := "n2", description := "", priority := "high", deadline := "d",
      completed := true, project_id := "p1" }
    (by decide) (by decide)

theorem runInserts_ok {α : Type} (key : α → String) (norm : α → α)
    (hkey : ∀ a, key (norm a) = key a) :
    ∀ (xs acc : List α), ((xs.map key).Nodup) →
    (∀ x ∈ xs, ∀ q ∈ acc, key q ≠ key x) →
    Legacy.runInserts (fun tbl a =>
      if tbl.any (fun q => key q == key a) then none
      else some (tbl ++ [norm a])) acc xs =
      (true, acc ++ xs.map norm) := by
  intro xs
  induction xs with
  | nil =>
    intro acc _ _
    simp [Legacy.runInserts]
  | cons x rest ih =>
    intro acc hnodup hdisj
    rw [List.map_cons, List.nodup_cons] at hnodup
    have hnotin : (acc.any fun q => key q == key x) = false := by
      rw [List.any_eq_false]
      intro q hq
      simp [hdisj x (List.mem_cons_self _ _) q hq]
    have hdisj2 : ∀ y ∈ rest, ∀ q ∈ acc ++ [norm x], key q ≠ key y := by
      intro y hy q hq
      rcases List.mem_append.mp hq with hq | hq
      · exact hdisj y (List.mem_cons_of_mem _ hy) q hq
      · have hqx : q = norm x := List.mem_singleton.mp hq
        subst hqx
        rw [hkey]
        intro hcontra
        exact hnodup.1 (hcontra ▸ List.mem_map_of_mem key hy)
    have hstep := ih (acc ++ [norm x]) hnodup.2 hdisj2
    calc Legacy.runInserts (fun tbl a =>
          if tbl.any (fun q => key q == key a) then none
          else some (tbl ++ [norm a])) acc (x :: rest)
        = Legacy.runInserts (fun tbl a =>
            if tbl.any (fun q => key q == key a) then none
            else some (tbl ++ [norm a])) (acc ++ [norm x]) rest := by
          simp [Legacy.runInserts, hnotin]
      _ = (true, (acc ++ [norm x]) ++ rest.map norm) := hstep
      _ = (true, acc ++ (x :: rest).map norm) := by
          simp [List.append_assoc]

/-- C6: in the non-authenticated variant, importing an exported document
reproduces exactly the same projects (by id and name) and the same tasks
(by every field except the server-assigned creation timestamp), preserving
array order, whatever store the import runs against (the import first
deletes everything); and an import whose `projects` or `tasks` field is not
an array (modelled as `none`) answers 400 without touching the store. -/
theorem import_export_roundtrip (s st : Legacy.StateN) (now1 : String)
    (now2 : Nat)
    (hp : (s.projects.map (fun p => p.id)).Nodup)
    (ht : (s.tasks.map (fun t => t.id)).Nodup) :
    ((Legacy.importData (some (Legacy.exportN s now1).projects)
        (some (Legacy.exportN s now1).tasks) now2 st).1 = .ok () ∧
      (Legacy.importData (some (Legacy.exportN s now1).projects)
        (some (Legacy.exportN s now1).tasks) now2 st).2.projects.map
          Legacy.projKey = s.projects.map Legacy.projKey ∧
      (Legacy.importData (some (Legacy.exportN s now1).projects)
        (some (Legacy.exportN s now1).tasks) now2 st).2.tasks.map
          Legacy.taskKey = s.tasks.map Legacy.taskKey) ∧
    (∀ ps ts, ps = none ∨ ts = none →
      Legacy.importData ps ts now2 st = (.err 400, st)) := by
  have hrunP : Legacy.runInserts (Legacy.insertProjectN now2) [] s.projects =
      (true, s.projects.map (normP now2)) := by
    have h := runInserts_ok (fun p : Legacy.ProjectN => p.id) (normP now2)
      (fun _ => rfl) s.projects [] hp (by intro x _ q hq; cases hq)
    rw [List.nil_append] at h
    exact h
  have hrunT : Legacy.runInserts (Legacy.insertTaskN now2) [] s.tasks =
      (true, s.tasks.map (normT now2)) := by
    have h := runInserts_ok (fun t : Legacy.TaskN => t.id) (normT now2)
      (fun _ => rfl) s.tasks [] ht (by intro x _ q hq; cases hq)
    rw [List.nil_append] at h
    exact h
  have hres : Legacy.importData (some (Legacy.exportN s now1).projects)
      (some (Legacy.exportN s now1).tasks) now2 st =
      (.ok (), { projects := s.projects.map (normP now2),
                 tasks := s.tasks.map (normT now2) }) := by
    show Legacy.importData (some s.projects) (some s.tasks) now2 st = _
    rw [Legacy.importData.eq_def]
    simp only [hrunP, hrunT]
  refine ⟨⟨by rw [hres], ?_, ?_⟩, ?_⟩
  · rw [hres]
    show (s.projects.map (normP now2)).map Legacy.projKey =
      s.projects.map Legacy.projKey
    rw [List.map_map]
    rfl
  · rw [hres]
    show (s.tasks.map (normT now2)).map Legacy.taskKey =
      s.tasks.map Legacy.taskKey
    rw [List.map_map]
    rfl
  · intro ps ts h
    rcases h with rfl | rfl
    · cases ts <;> rfl
    · cases ps <;> rfl

/-- Witness for `import_export_roundtrip`: exporting `stC6` and importing the
document into an empty store reproduces the same projects and tasks. -/
theorem import_export_roundtrip_witness :
    (Legacy.importData (some (Legacy.exportN stC6 "T").projects)
        (some (Legacy.exportN stC6 "T").tasks) 7
        { projects := [], tasks := [] }).1 = .ok () ∧
    (Legacy.importData (some (Legacy.exportN stC6 "T").projects)
        (some (Legacy.exportN stC6 "T").tasks) 7
        { projects := [], tasks := [] }).2.projects.map Legacy.projKey =
      stC6.projects.map Legacy.projKey ∧
    (Legacy.importData (some (Legacy.exportN stC6 "T").projects)
        (some (Legacy.exportN stC6 "T").tasks) 7
        { projects := [], tasks := [] }).2.tasks.map Legacy.taskKey =
      stC6.tasks.map Legacy.taskKey :=
  (import_export_roundtrip stC6 { projects := [], tasks := [] } "T" 7
    (by decide) (by decide)).1
